import Mathlib

/-!
Verification model of `api-tester.py`, a concurrent HTTP load-generation tool.

The embedding is shallow and faithful to the Python source:

* Python integers are `Int`; Python floor division `//` and modulo `%` are
  `Int.fdiv` and `Int.fmod` (they agree with Python for every sign of the
  operands); a division whose divisor is zero raises in Python, so the places
  where the source divides without a guard are modelled with `Except`.
* Clock readings and durations are `ℚ`; the environment (network, clock) is an
  oracle that supplies the outcome of each HTTP call, including its measured
  elapsed time in milliseconds, since only the control flow around those values
  belongs to the program.
* The worker loop `fetch_data` is sequential inside one worker; across workers
  only the multiset of appended response times is determined (appends happen
  under `print_lock`), so the run model concatenates per-worker records in
  worker order, which preserves the count and the mean that the claims are
  about.
-/

/-- Outcome of one `session.get` attempt, supplied by the environment: either a
completed HTTP exchange carrying the status code, whether the body bytes decode
as UTF-8, and the measured elapsed milliseconds, or a
`requests.exceptions.RequestException` (timeout, connection refused, DNS, TLS,
retries exhausted, ...) with the elapsed milliseconds at the moment it was
raised. -/
inductive CallOutcome where
  | response (statusCode : Nat) (bodyUtf8 : Bool) (elapsedMs : ℚ)
  | transportError (elapsedMs : ℚ)
deriving DecidableEq

/-- Classification of one executed call, as printed by `fetch_data`
(lines 50-65): HTTP 200 is a success, any other status code is a failed-status
outcome, and a caught `RequestException` is a failed-transport outcome. Every
record carries the elapsed time that the source appends to `response_times`. -/
inductive CallRecord where
  | success (elapsedMs : ℚ)
  | failedStatus (statusCode : Nat) (elapsedMs : ℚ)
  | failedTransport (elapsedMs : ℚ)
deriving DecidableEq

/-- Elapsed time stored in a record: this is exactly the value the source
appends to the shared `response_times` list in all three branches. -/
def CallRecord.elapsedMs : CallRecord → ℚ
  | .success e => e
  | .failedStatus _ e => e
  | .failedTransport e => e

/-- True exactly on the `success` constructor (status code 200 branch). -/
def CallRecord.isSuccess : CallRecord → Bool
  | .success _ => true
  | _ => false

/-- True exactly on the `failedStatus` constructor (non-200 branch). -/
def CallRecord.isFailedStatus : CallRecord → Bool
  | .failedStatus _ _ => true
  | _ => false

/-- One iteration of the `fetch_data` loop body (lines 35-65). A completed
exchange first drains the body when `keep_connects_open` is not set:
`response.content.decode("utf-8")` (line 47) raises `UnicodeDecodeError` on a
body that is not valid UTF-8, and that exception is NOT a
`requests.exceptions.RequestException`, so the `except` clause at line 59 does
not catch it — the iteration ends with an uncaught exception, modelled as
`none`, and no entry is appended. Otherwise the call is classified by status
code and exactly one record is produced. A `RequestException` from
`session.get` is caught and recorded as a failed-transport outcome. -/
def callStep (keep_connects_open : Bool) (o : CallOutcome) : Option CallRecord :=
  match o with
  | .response code bodyUtf8 e =>
    if !keep_connects_open && !bodyUtf8 then none
    else if code == 200 then some (.success e)
    else some (.failedStatus code e)
  | .transportError e => some (.failedTransport e)

/-- State of one worker thread when it returns (or dies): the records it
appended in order, how many times it executed `time.sleep(sleep_time)`
(line 66), and whether it completed its loop (`false` means an uncaught
exception terminated the thread early). -/
structure WorkerResult where
  records : List CallRecord
  sleeps : Nat
  completed : Bool
deriving DecidableEq

/-- Tail-recursive unfolding of the `for call_num in range(num_calls)` loop of
`fetch_data`: `n` calls remain, `call_num` is the index of the next call,
`acc` holds the records appended so far (reversed), `s` counts executed sleeps.
The sleep at line 66 sits inside the loop after the `try`/`except`, so it runs
after every iteration that does not raise, including the last one. -/
def fetchDataAux (keep_connects_open : Bool) (oracle : Nat → CallOutcome) :
    Nat → Nat → List CallRecord → Nat → WorkerResult
  | 0, _, acc, s => ⟨acc.reverse, s, true⟩
  | n + 1, call_num, acc, s =>
    match callStep keep_connects_open (oracle call_num) with
    | none => ⟨acc.reverse, s, false⟩
    | some r => fetchDataAux keep_connects_open oracle n (call_num + 1) (r :: acc) (s + 1)

/-- The worker body `fetch_data` (lines 32-66) for a quota of `num_calls`
calls. Python's `range` of a non-positive integer is empty, hence `Int.toNat`.
The oracle gives the environment's outcome for each `call_num`. -/
def fetchData (keep_connects_open : Bool) (num_calls : Int) (oracle : Nat → CallOutcome) :
    WorkerResult :=
  fetchDataAux keep_connects_open oracle num_calls.toNat 0 [] 0

/-- Integer division of line 148: `calls_per_thread = total_calls // num_threads`
(`Int.fdiv` is Python's floor division). -/
def calls_per_thread (total_calls num_threads : Int) : Int :=
  Int.fdiv total_calls num_threads

/-- Modulo of line 149: `remainder_calls = total_calls % num_threads`
(`Int.fmod` matches Python `%` for all signs). -/
def remainder_calls (total_calls num_threads : Int) : Int :=
  Int.fmod total_calls num_threads

/-- Quota of thread `i` from line 170:
`num_calls_this_thread = calls_per_thread + (1 if i < remainder_calls else 0)`. -/
def num_calls_this_thread (total_calls num_threads : Int) (i : Nat) : Int :=
  calls_per_thread total_calls num_threads +
    (if (i : Int) < remainder_calls total_calls num_threads then 1 else 0)

/-- The thread-spawning loop of lines 167-180: one `fetch_data` worker per
`i in range(num_threads)`, each with its computed quota, all joined. The list
element `i` is the final state of worker `i`. -/
def runWorkers (keep_connects_open : Bool) (total_calls num_threads : Int)
    (oracle : Nat → Nat → CallOutcome) : List WorkerResult :=
  (List.range num_threads.toNat).map
    (fun i => fetchData keep_connects_open (num_calls_this_thread total_calls num_threads i) (oracle i))

/-- Contents of the shared `response_times` list after all workers joined:
every worker contributed `records.map elapsedMs`; the interleaving across
workers is scheduler-dependent, but the multiset — hence the length and the
mean — is not, so worker order is used. -/
def responseTimesOf (results : List WorkerResult) : List ℚ :=
  (results.map (fun r => r.records.map CallRecord.elapsedMs)).flatten

/-- Final report printed by `main` (lines 193-196). -/
structure RunReport where
  num_threads : Int
  total_time : ℚ
  average_response_time : ℚ
  requests_per_second : ℚ
deriving DecidableEq

/-- Python float division: `a / b` raises `ZeroDivisionError` when `b == 0`. -/
def pyFloatDiv (a b : ℚ) : Except String ℚ :=
  if b = 0 then .error "float division by zero" else .ok (a / b)

/-- Python integer floor division and modulo as a pair: lines 148-149 compute
both from the same operands, and both raise `ZeroDivisionError` when
`num_threads == 0`. -/
def pyIntDivMod (a b : Int) : Except String (Int × Int) :=
  if b = 0 then .error "integer division or modulo by zero"
  else .ok (Int.fdiv a b, Int.fmod a b)

/-- Aggregation of lines 183-196: `requests_per_second = total_calls / total_time`
is computed first and is NOT guarded against `total_time == 0`; the average IS
guarded: `sum(response_times) / len(response_times)` only when the list is
non-empty, else `0`. -/
def computeReport (total_calls num_threads : Int) (total_time : ℚ)
    (response_times : List ℚ) : Except String RunReport :=
  match pyFloatDiv (total_calls : ℚ) total_time with
  | .error e => .error e
  | .ok rps =>
    let avg : ℚ :=
      if response_times.isEmpty then 0
      else response_times.sum / (response_times.length : ℚ)
    .ok ⟨num_threads, total_time, avg, rps⟩

/-- The core of `main` from line 148 on: compute the per-thread quotas (raises
`ZeroDivisionError` when `num_threads == 0`, before any thread is created and
before any HTTP request is issued), run and join all workers, then aggregate.
`total_time` is the wall-clock duration `end_time - start_time` measured by the
environment. -/
def runMain (total_calls num_threads : Int) (keep_connects_open : Bool)
    (oracle : Nat → Nat → CallOutcome) (total_time : ℚ) :
    Except String (List WorkerResult × RunReport) :=
  match pyIntDivMod total_calls num_threads with
  | .error e => .error e
  | .ok _ =>
    let results := runWorkers keep_connects_open total_calls num_threads oracle
    match computeReport total_calls num_threads total_time (responseTimesOf results) with
    | .error e => .error e
    | .ok report => .ok (results, report)

/-- Timeout argument built at line 35 and passed to `session.get` at line 39:
`timeout_tuple = (request_time_out, connect_time_out)`, in that order. -/
def timeout_tuple (request_time_out connect_time_out : ℚ) : ℚ × ℚ :=
  (request_time_out, connect_time_out)

/-- Timeout that governs connection establishment. The `requests` library
documents that a pair passed as `timeout` is interpreted as
`(connect timeout, read timeout)`: the FIRST component bounds connection
establishment. The source puts `request_time_out` first. -/
def connectTimeoutApplied (request_time_out connect_time_out : ℚ) : ℚ :=
  (timeout_tuple request_time_out connect_time_out).1

/-- Timeout that governs the wait for the HTTP response (read timeout): the
SECOND component of the `requests` timeout pair. The source puts
`connect_time_out` second. -/
def readTimeoutApplied (request_time_out connect_time_out : ℚ) : ℚ :=
  (timeout_tuple request_time_out connect_time_out).2

/-- Concrete two-call environment used as a witness input: call 0 is a
transport error, call 1 is a completed exchange with HTTP 500 and a
UTF-8-decodable body. -/
def witnessOracle : Nat → CallOutcome
  | 0 => .transportError 5
  | _ => .response 500 true 7

/-! ### Helper lemmas -/

/-- Summing the 0/1 indicator of `i < k` over `range m` gives `k` when `k ≤ m`. -/
lemma sum_indicator_lt (k : Nat) : ∀ m : Nat, k ≤ m →
    (∑ i in Finset.range m, (if i < k then (1 : Int) else 0)) = k := by
  intro m
  induction m with
  | zero =>
    intro h
    simp [Nat.le_zero.mp h]
  | succ n ih =>
    intro h
    rw [Finset.sum_range_succ]
    rcases Nat.lt_or_ge n k with hn | hn
    · have hk : k = n + 1 := Nat.le_antisymm h hn
      subst hk
      have hall : ∀ i ∈ Finset.range n, (if i < n + 1 then (1 : Int) else 0) = 1 := by
        intro i hi
        simp [Nat.lt_succ_of_lt (Finset.mem_range.mp hi)]
      rw [Finset.sum_congr rfl hall, Finset.sum_const, Finset.card_range]
      simp
    · have h1 : ¬ n < k := Nat.not_lt.mpr hn
      rw [ih hn]
      simp [h1]

/-- The quotas of lines 148-149 and 170 sum to `total_calls` for any
`num_threads ≥ 1` (any sign of `total_calls`). -/
lemma sum_quota (t w : Int) (hw : 1 ≤ w) :
    ∑ i in Finset.range w.toNat, num_calls_this_thread t w i = t := by
  have hw0 : (0 : Int) < w := hw
  have hrem0 : 0 ≤ remainder_calls t w := Int.fmod_nonneg' t hw0
  have hremw : remainder_calls t w < w := Int.fmod_lt_of_pos t hw0
  have hcond : ∀ i : Nat,
      ((i : Int) < remainder_calls t w) ↔ (i < (remainder_calls t w).toNat) := by
    intro i
    rw [← Int.toNat_of_nonneg hrem0]
    exact_mod_cast Iff.rfl
  unfold num_calls_this_thread
  rw [Finset.sum_add_distrib, Finset.sum_const, Finset.card_range]
  simp only [hcond]
  have hk : (remainder_calls t w).toNat ≤ w.toNat :=
    Int.toNat_le_toNat (le_of_lt hremw)
  rw [sum_indicator_lt _ _ hk, nsmul_eq_mul, Int.toNat_of_nonneg (le_of_lt hw0),
    Int.toNat_of_nonneg hrem0]
  have hdm := Int.fmod_add_fdiv t w
  unfold calls_per_thread remainder_calls
  linarith

/-- A quota is never negative when the total is non-negative. -/
lemma quota_nonneg (t w : Int) (ht : 0 ≤ t) (hw : 1 ≤ w) (i : Nat) :
    0 ≤ num_calls_this_thread t w i := by
  have hw0 : (0 : Int) < w := hw
  have hbase : 0 ≤ calls_per_thread t w := by
    unfold calls_per_thread
    rw [Int.fdiv_eq_ediv t (le_of_lt hw0)]
    exact Int.ediv_nonneg ht (le_of_lt hw0)
  unfold num_calls_this_thread
  by_cases hc : (i : Int) < remainder_calls t w <;> simp [hc] <;> linarith

/-- Every quota is non-positive when the total is negative: floor division of a
negative total by a positive thread count is at most `-1`, and the remainder
bonus is at most `1`. -/
lemma quota_nonpos (t w : Int) (ht : t < 0) (hw : 1 ≤ w) (i : Nat) :
    num_calls_this_thread t w i ≤ 0 := by
  have hw0 : (0 : Int) < w := hw
  have hbase : calls_per_thread t w < 0 := by
    unfold calls_per_thread
    rw [Int.fdiv_eq_ediv t (le_of_lt hw0)]
    exact Int.ediv_neg' ht hw0
  unfold num_calls_this_thread
  by_cases hc : (i : Int) < remainder_calls t w <;> simp [hc] <;> linarith

/-- A worker that completed executed exactly as many iterations as remained,
each appending one record. -/
lemma fetchDataAux_completed_length (k : Bool) (o : Nat → CallOutcome) :
    ∀ (n c : Nat) (acc : List CallRecord) (s : Nat),
      (fetchDataAux k o n c acc s).completed = true →
      (fetchDataAux k o n c acc s).records.length = n + acc.length := by
  intro n
  induction n with
  | zero =>
    intro c acc s _
    simp [fetchDataAux]
  | succ m ih =>
    intro c acc s h
    cases hcs : callStep k (o c) with
    | none => simp [fetchDataAux, hcs] at h
    | some r =>
      simp only [fetchDataAux, hcs] at h ⊢
      have := ih (c + 1) (r :: acc) (s + 1) h
      simp only [List.length_cons] at this
      omega

/-- A worker that completed slept exactly once per executed iteration. -/
lemma fetchDataAux_completed_sleeps (k : Bool) (o : Nat → CallOutcome) :
    ∀ (n c : Nat) (acc : List CallRecord) (s : Nat),
      (fetchDataAux k o n c acc s).completed = true →
      (fetchDataAux k o n c acc s).sleeps = n + s := by
  intro n
  induction n with
  | zero =>
    intro c acc s _
    simp [fetchDataAux]
  | succ m ih =>
    intro c acc s h
    cases hcs : callStep k (o c) with
    | none => simp [fetchDataAux, hcs] at h
    | some r =>
      simp only [fetchDataAux, hcs] at h ⊢
      have := ih (c + 1) (r :: acc) (s + 1) h
      omega

/-- If no remaining iteration raises an uncaught exception, the worker
completes. -/
lemma fetchDataAux_completed_of_isSome (k : Bool) (o : Nat → CallOutcome) :
    ∀ (n c : Nat) (acc : List CallRecord) (s : Nat),
      (∀ i, i < n → (callStep k (o (c + i))).isSome = true) →
      (fetchDataAux k o n c acc s).completed = true := by
  intro n
  induction n with
  | zero =>
    intro c acc s _
    simp [fetchDataAux]
  | succ m ih =>
    intro c acc s h
    cases hcs : callStep k (o c) with
    | none =>
      have h0 := h 0 (Nat.succ_pos m)
      rw [Nat.add_zero, hcs] at h0
      simp at h0
    | some r =>
      simp only [fetchDataAux, hcs]
      apply ih (c + 1) (r :: acc) (s + 1)
      intro i hi
      have := h (i + 1) (Nat.succ_lt_succ hi)
      rwa [show c + (i + 1) = c + 1 + i by omega] at this

/-- Completed worker: record count equals the quota. -/
lemma fetchData_completed_length (k : Bool) (q : Int) (o : Nat → CallOutcome)
    (h : (fetchData k q o).completed = true) :
    (fetchData k q o).records.length = q.toNat := by
  have := fetchDataAux_completed_length k o q.toNat 0 [] 0 h
  simpa [fetchData] using this

/-- Completed worker: sleep count equals the quota. -/
lemma fetchData_completed_sleeps (k : Bool) (q : Int) (o : Nat → CallOutcome)
    (h : (fetchData k q o).completed = true) :
    (fetchData k q o).sleeps = q.toNat := by
  have := fetchDataAux_completed_sleeps k o q.toNat 0 [] 0 h
  simpa [fetchData] using this

/-- A non-positive quota runs zero iterations: empty records, zero sleeps,
normal completion. -/
lemma fetchData_nonpos (k : Bool) (q : Int) (o : Nat → CallOutcome) (hq : q ≤ 0) :
    fetchData k q o = ⟨[], 0, true⟩ := by
  unfold fetchData
  rw [Int.toNat_of_nonpos hq]
  rfl

/-- Length of the shared response-time list: one entry per record of each
worker. -/
lemma responseTimesOf_length (results : List WorkerResult) :
    (responseTimesOf results).length = (results.map (fun r => r.records.length)).sum := by
  unfold responseTimesOf
  rw [List.length_flatten, List.map_map]
  simp only [Function.comp_def, List.length_map]

/-- A list sum over `List.range` is the corresponding `Finset.range` sum. -/
lemma list_sum_range_eq {M : Type} [AddCommMonoid M] (f : Nat → M) (n : Nat) :
    ((List.range n).map f).sum = ∑ i in Finset.range n, f i := by
  induction n with
  | zero => rfl
  | succ m ih =>
    rw [List.range_succ, List.map_append, List.sum_append, Finset.sum_range_succ, ih]
    simp

/-- If every worker appended nothing, the shared response-time list is empty. -/
lemma responseTimesOf_nil (results : List WorkerResult)
    (h : ∀ r ∈ results, r.records = []) : responseTimesOf results = [] := by
  induction results with
  | nil => rfl
  | cons a l ih =>
    have ha := h a (List.mem_cons_self a l)
    have hl : ∀ r ∈ l, r.records = [] := fun r hr => h r (List.mem_cons_of_mem a hr)
    have ihl := ih hl
    simp only [responseTimesOf, List.map_cons, List.flatten_cons, ha, List.map_nil,
      List.nil_append]
    simpa [responseTimesOf] using ihl

/-- Nat-valued version of the quota sum: total recorded work planned across all
threads, for a non-negative total. -/
lemma sum_quota_toNat (t w : Int) (ht : 0 ≤ t) (hw : 1 ≤ w) :
    (∑ i in Finset.range w.toNat, (num_calls_this_thread t w i).toNat) = t.toNat := by
  have key : ((∑ i in Finset.range w.toNat, (num_calls_this_thread t w i).toNat : ℕ) : ℤ)
      = ∑ i in Finset.range w.toNat, num_calls_this_thread t w i := by
    rw [Nat.cast_sum]
    apply Finset.sum_congr rfl
    intro i _
    exact Int.toNat_of_nonneg (quota_nonneg t w ht hw i)
  rw [sum_quota t w hw] at key
  omega

/-! ### Claims -/

/-- C1: for every `totalCalls ≥ 0` and `workerCount ≥ 1`, the sum of the
per-worker call quotas computed at lines 148-149 and 170
(`base = totalCalls // workerCount` plus one for each index below
`totalCalls % workerCount`) equals `totalCalls` exactly. -/
theorem quota_sum_eq_total_calls (t w : Int) (ht : 0 ≤ t) (hw : 1 ≤ w) :
    ∑ i in Finset.range w.toNat, num_calls_this_thread t w i = t :=
  sum_quota t w hw

/-- Witness for C1 at `totalCalls = 10`, `workerCount = 3`. -/
theorem quota_sum_eq_total_calls_witness :
    (0 : Int) ≤ 10 ∧ (1 : Int) ≤ 3 ∧
      ∑ i in Finset.range (3 : Int).toNat, num_calls_this_thread 10 3 i = 10 :=
  ⟨by decide, by decide, quota_sum_eq_total_calls 10 3 (by decide) (by decide)⟩

/-- C7: worker `i` receives `base + 1` calls when `i` is below the remainder
and `base` calls otherwise, and consequently no two worker quotas differ by
more than 1. -/
theorem quota_formula_and_balance (t w : Int) (ht : 0 ≤ t) (hw : 1 ≤ w) :
    (∀ i : Nat,
      ((i : Int) < remainder_calls t w →
        num_calls_this_thread t w i = calls_per_thread t w + 1) ∧
      (¬ (i : Int) < remainder_calls t w →
        num_calls_this_thread t w i = calls_per_thread t w)) ∧
    (∀ i j : Nat, |num_calls_this_thread t w i - num_calls_this_thread t w j| ≤ 1) := by
  constructor
  · intro i
    constructor <;> intro hcnd <;> simp [num_calls_this_thread, hcnd]
  · intro i j
    unfold num_calls_this_thread
    by_cases hi : (i : Int) < remainder_calls t w <;>
      by_cases hj : (j : Int) < remainder_calls t w <;>
      simp [hi, hj]

/-- Witness for C7 at `totalCalls = 10`, `workerCount = 3`. -/
theorem quota_formula_and_balance_witness :
    (0 : Int) ≤ 10 ∧ (1 : Int) ≤ 3 ∧
    ((∀ i : Nat,
      ((i : Int) < remainder_calls 10 3 →
        num_calls_this_thread 10 3 i = calls_per_thread 10 3 + 1) ∧
      (¬ (i : Int) < remainder_calls 10 3 →
        num_calls_this_thread 10 3 i = calls_per_thread 10 3)) ∧
    (∀ i j : Nat, |num_calls_this_thread 10 3 i - num_calls_this_thread 10 3 j| ≤ 1)) :=
  ⟨by decide, by decide, quota_formula_and_balance 10 3 (by decide) (by decide)⟩

/-- C9: with `numThreads = 0` the unguarded `//` and `%` of lines 148-149 raise
`ZeroDivisionError`, so `main` fails before any worker thread is created and
before any HTTP request is issued — the model's pipeline short-circuits to the
error before `runWorkers` or any oracle consultation. -/
theorem zero_workers_division_error (t : Int) (k : Bool)
    (oracle : Nat → Nat → CallOutcome) (tt : ℚ) :
    runMain t 0 k oracle tt = Except.error "integer division or modulo by zero" := by
  simp [runMain, pyIntDivMod]

/-- C10: for `totalCalls < 0` and `workerCount ≥ 1`, every thread's computed
iteration count is non-positive, so every worker runs zero iterations and
records nothing, all workers join normally, and the run still produces a
report (average 0, throughput `totalCalls / totalTime`) without raising,
provided the measured wall-clock time is non-zero (a real clock). -/
theorem negative_total_calls_safe (t w : Int) (k : Bool)
    (oracle : Nat → Nat → CallOutcome) (tt : ℚ)
    (ht : t < 0) (hw : 1 ≤ w) (htt : tt ≠ 0) :
    (∀ i : Nat, num_calls_this_thread t w i ≤ 0) ∧
    (∀ r ∈ runWorkers k t w oracle, r.records = [] ∧ r.completed = true) ∧
    responseTimesOf (runWorkers k t w oracle) = [] ∧
    runMain t w k oracle tt =
      Except.ok (runWorkers k t w oracle, ⟨w, tt, 0, (t : ℚ) / tt⟩) := by
  have hq : ∀ i : Nat, num_calls_this_thread t w i ≤ 0 := quota_nonpos t w ht hw
  have hmem : ∀ r ∈ runWorkers k t w oracle, r.records = [] ∧ r.completed = true := by
    intro r hr
    unfold runWorkers at hr
    obtain ⟨i, _, rfl⟩ := List.mem_map.mp hr
    rw [fetchData_nonpos k _ _ (hq i)]
    exact ⟨rfl, rfl⟩
  have hrts : responseTimesOf (runWorkers k t w oracle) = [] :=
    responseTimesOf_nil _ (fun r hr => (hmem r hr).1)
  refine ⟨hq, hmem, hrts, ?_⟩
  have hw0 : w ≠ 0 := by omega
  simp [runMain, pyIntDivMod, hw0, hrts, computeReport, pyFloatDiv, htt]

/-- Witness for C10 at `totalCalls = -5`, `workerCount = 3`, `totalTime = 1`. -/
theorem negative_total_calls_safe_witness :
    (-5 : Int) < 0 ∧ (1 : Int) ≤ 3 ∧ (1 : ℚ) ≠ 0 ∧
    ((∀ i : Nat, num_calls_this_thread (-5) 3 i ≤ 0) ∧
    (∀ r ∈ runWorkers false (-5) 3 (fun _ _ => CallOutcome.transportError 1),
      r.records = [] ∧ r.completed = true) ∧
    responseTimesOf (runWorkers false (-5) 3 (fun _ _ => CallOutcome.transportError 1)) = [] ∧
    runMain (-5) 3 false (fun _ _ => CallOutcome.transportError 1) 1 =
      Except.ok (runWorkers false (-5) 3 (fun _ _ => CallOutcome.transportError 1),
        ⟨3, 1, 0, ((-5 : Int) : ℚ) / 1⟩)) :=
  ⟨by decide, by decide, by decide,
    negative_total_calls_safe (-5) 3 false (fun _ _ => CallOutcome.transportError 1) 1
      (by decide) (by decide) (by decide)⟩

/-- C2: when every worker completes its quota (no uncaught exception), each
executed call appends exactly one elapsed-time entry to the shared
`response_times` list, so the total number of recorded entries equals
`totalCalls` exactly. -/
theorem recorded_entries_eq_total_calls (t w : Int) (k : Bool)
    (oracle : Nat → Nat → CallOutcome) (ht : 0 ≤ t) (hw : 1 ≤ w)
    (hc : ∀ r ∈ runWorkers k t w oracle, r.completed = true) :
    ((responseTimesOf (runWorkers k t w oracle)).length : Int) = t := by
  have hlen := responseTimesOf_length (runWorkers k t w oracle)
  have hmap : (runWorkers k t w oracle).map (fun r => r.records.length)
      = (List.range w.toNat).map (fun i => (num_calls_this_thread t w i).toNat) := by
    unfold runWorkers
    rw [List.map_map]
    apply List.map_congr_left
    intro i hi
    simp only [Function.comp_def]
    exact fetchData_completed_length k _ _ (hc _ (List.mem_map_of_mem _ hi))
  rw [hlen, hmap, list_sum_range_eq, sum_quota_toNat t w ht hw]
  exact Int.toNat_of_nonneg ht

/-- Witness for C2: five transport-error calls over two workers all get
recorded. -/
theorem recorded_entries_eq_total_calls_witness :
    (0 : Int) ≤ 5 ∧ (1 : Int) ≤ 2 ∧
    (∀ r ∈ runWorkers false 5 2 (fun _ _ => CallOutcome.transportError 2),
      r.completed = true) ∧
    ((responseTimesOf (runWorkers false 5 2 (fun _ _ => CallOutcome.transportError 2))).length : Int) = 5 :=
  ⟨by decide, by decide, by decide,
    recorded_entries_eq_total_calls 5 2 false (fun _ _ => CallOutcome.transportError 2)
      (by decide) (by decide) (by decide)⟩

/-- Counterexample to C3: a completed exchange whose body is not valid UTF-8,
with `keep_connects_open` unset, raises `UnicodeDecodeError` at line 47; it is
not a `requests.exceptions.RequestException`, so the handler at line 59 does
not catch it. The worker dies on its first call: nothing is recorded and the
second call of its quota is never executed — contradicting "the worker records
the call and continues executing the remainder of its quota". -/
theorem body_decode_failure_kills_worker :
    (fetchData false 2 (fun _ => CallOutcome.response 200 false 5)).completed = false ∧
    (fetchData false 2 (fun _ => CallOutcome.response 200 false 5)).records = [] := by
  exact ⟨rfl, rfl⟩

/-- C3 amended: transport-level failures and every HTTP status are never fatal —
whenever each call in a worker's quota is either a caught
`RequestException` or a completed exchange whose body decodes as
UTF-8 (the body is only decoded when `keep_connects_open` is unset, so with the
flag set any body is safe), the worker records every call and completes its
full quota. The one uncovered path is a response body that fails UTF-8
decoding with `keep_connects_open` unset: that exception is uncaught and
terminates the worker early (see the counterexample). -/
theorem caught_outcomes_never_fatal (k : Bool) (q : Int) (oracle : Nat → CallOutcome)
    (h : ∀ i, i < q.toNat →
      (∃ e, oracle i = CallOutcome.transportError e) ∨
      (∃ code e, oracle i = CallOutcome.response code true e) ∨ k = true) :
    (fetchData k q oracle).completed = true ∧
    (fetchData k q oracle).records.length = q.toNat := by
  have hsome : ∀ i, i < q.toNat → (callStep k (oracle i)).isSome = true := by
    intro i hi
    rcases h i hi with ⟨e, he⟩ | ⟨code, e, he⟩ | hk
    · simp [he, callStep]
    · cases h200 : (code == 200) <;> simp [callStep, he, h200]
    · subst hk
      cases ho : oracle i with
      | response code b e => cases h200 : (code == 200) <;> simp [callStep, h200]
      | transportError e => simp [callStep]
  have hcompleted : (fetchData k q oracle).completed = true := by
    unfold fetchData
    exact fetchDataAux_completed_of_isSome k oracle q.toNat 0 [] 0
      (fun i hi => by rw [Nat.zero_add]; exact hsome i hi)
  exact ⟨hcompleted, fetchData_completed_length k q oracle hcompleted⟩

/-- Witness for the amended C3: a transport error followed by an HTTP 500 with
a decodable body; the worker survives both and records both. -/
theorem caught_outcomes_never_fatal_witness :
    (fetchData false 2 witnessOracle).completed = true ∧
    (fetchData false 2 witnessOracle).records.length = (2 : Int).toNat :=
  caught_outcomes_never_fatal false 2 witnessOracle
    (fun i hi =>
      match i, hi with
      | 0, _ => Or.inl ⟨5, rfl⟩
      | 1, _ => Or.inr (Or.inl ⟨500, 7, rfl⟩)
      | n + 2, hi => absurd hi (by omega))

/-- Counterexample to C5: `time.sleep(sleep_time)` at line 66 sits inside the
loop body after the `try`/`except`, so it also runs after the LAST call. A
worker with quota 1 performs 1 sleep, not `max (1 - 1) 0 = 0` as the claim
states. -/
theorem sleep_not_skipped_after_last_call :
    (fetchData true 1 witnessOracle).sleeps = 1 ∧ (1 : Nat) ≠ max (1 - 1) 0 := by
  exact ⟨rfl, by decide⟩

/-- C5 amended: the inter-call sleep runs after every call including the last:
a worker that completes a quota `q` performs exactly `q` sleeps (`q.toNat`
of them, since a non-positive quota runs no iterations), not `max (q - 1) 0`. -/
theorem sleeps_eq_quota (k : Bool) (q : Int) (oracle : Nat → CallOutcome)
    (h : (fetchData k q oracle).completed = true) :
    (fetchData k q oracle).sleeps = q.toNat :=
  fetchData_completed_sleeps k q oracle h

/-- Witness for the amended C5: three completed calls cause three sleeps. -/
theorem sleeps_eq_quota_witness :
    (fetchData false 3 (fun _ => CallOutcome.transportError 2)).completed = true ∧
    (fetchData false 3 (fun _ => CallOutcome.transportError 2)).sleeps = (3 : Int).toNat :=
  ⟨by decide,
    sleeps_eq_quota false 3 (fun _ => CallOutcome.transportError 2) (by decide)⟩

/-- Counterexample to C6: the source computes
`requests_per_second = total_calls / total_time` at line 186 with NO guard on
`total_time == 0`; with zero wall-clock time the division IS performed and
raises `ZeroDivisionError`, so no report with throughput equal to the literal
`totalCalls` (nor any report at all) is produced. Only the average is guarded. -/
theorem throughput_division_by_zero_unguarded :
    computeReport 10 16 0 [] = Except.error "float division by zero" := by
  simp [computeReport, pyFloatDiv]

/-- C6 amended: after all workers join, the reported average elapsed time is
the arithmetic mean of the recorded entries, 0 when none were recorded; the
throughput is `totalCalls / totalTime` computed by an UNGUARDED division —
when the wall-clock time is non-zero the report is produced as stated, and
when it is zero the division raises `ZeroDivisionError` (see the
counterexample), instead of reporting the literal `totalCalls`. -/
theorem report_mean_and_throughput (tc nt : Int) (tt : ℚ) (rts : List ℚ)
    (htt : tt ≠ 0) :
    computeReport tc nt tt rts =
      Except.ok ⟨nt, tt,
        (if rts.isEmpty then 0 else rts.sum / (rts.length : ℚ)), (tc : ℚ) / tt⟩ := by
  simp [computeReport, pyFloatDiv, htt]

/-- Witness for the amended C6: two entries with mean 2, throughput 5. -/
theorem report_mean_and_throughput_witness :
    (2 : ℚ) ≠ 0 ∧
    computeReport 10 16 2 [1, 3] =
      Except.ok ⟨16, 2,
        (if ([1, 3] : List ℚ).isEmpty then 0
          else ([1, 3] : List ℚ).sum / (([1, 3] : List ℚ).length : ℚ)),
        ((10 : Int) : ℚ) / 2⟩ :=
  ⟨by decide, report_mean_and_throughput 10 16 2 [1, 3] (by decide)⟩

/-- C8: a completed HTTP exchange (body drained without raising) is classified
by the test at line 51: success exactly when the status code equals 200, a
failed-status record otherwise — never a transport error — and in both cases
exactly one record carrying the measured elapsed time is appended, as the
single-call worker shows, so the entry is counted toward the total and enters
the average. -/
theorem status_code_classification (k : Bool) (code : Nat) (b : Bool) (e : ℚ)
    (h : k = true ∨ b = true) :
    ∃ r : CallRecord,
      callStep k (CallOutcome.response code b e) = some r ∧
      (r.isSuccess = true ↔ code = 200) ∧
      (code = 200 → r = CallRecord.success e) ∧
      (code ≠ 200 → r = CallRecord.failedStatus code e) ∧
      r.elapsedMs = e ∧
      (fetchData k 1 (fun _ => CallOutcome.response code b e)).records = [r] ∧
      responseTimesOf [fetchData k 1 (fun _ => CallOutcome.response code b e)] = [e] := by
  have hnb : (!k && !b) = false := by
    rcases h with hk | hb
    · subst hk; simp
    · subst hb; simp
  cases h200 : (code == 200) with
  | true =>
    have hcode : code = 200 := by simpa using h200
    refine ⟨CallRecord.success e, ?_, ?_, ?_, ?_, rfl, ?_, ?_⟩
    · simp [callStep, hnb, h200]
    · simp [CallRecord.isSuccess, hcode]
    · intro _; rfl
    · intro hne; exact absurd hcode hne
    · simp [fetchData, fetchDataAux, callStep, hnb, h200]
    · simp [responseTimesOf, fetchData, fetchDataAux, callStep, hnb, h200, CallRecord.elapsedMs]
  | false =>
    have hcode : code ≠ 200 := by
      intro hc
      subst hc
      simp at h200
    refine ⟨CallRecord.failedStatus code e, ?_, ?_, ?_, ?_, rfl, ?_, ?_⟩
    · simp [callStep, hnb, h200]
    · simp [CallRecord.isSuccess, hcode]
    · intro hc; exact absurd hc hcode
    · intro _; rfl
    · simp [fetchData, fetchDataAux, callStep, hnb, h200]
    · simp [responseTimesOf, fetchData, fetchDataAux, callStep, hnb, h200, CallRecord.elapsedMs]

/-- Witness for C8 at an HTTP 503 exchange with a decodable body. -/
theorem status_code_classification_witness :
    (false = true ∨ true = true) ∧
    (∃ r : CallRecord,
      callStep false (CallOutcome.response 503 true 9) = some r ∧
      (r.isSuccess = true ↔ 503 = 200) ∧
      (503 = 200 → r = CallRecord.success 9) ∧
      (503 ≠ 200 → r = CallRecord.failedStatus 503 9) ∧
      r.elapsedMs = 9 ∧
      (fetchData false 1 (fun _ => CallOutcome.response 503 true 9)).records = [r] ∧
      responseTimesOf [fetchData false 1 (fun _ => CallOutcome.response 503 true 9)] = [9]) :=
  ⟨Or.inr rfl, status_code_classification false 503 true 9 (Or.inr rfl)⟩

/-- C4, evaluated at the failing input (the default configuration,
`request_time_out = 10` s, `connect_time_out = 30` s): the source builds
`timeout_tuple = (request_time_out, connect_time_out)` at line 35, but the
`requests` library interprets a timeout pair as `(connect timeout,
read timeout)`, so the value that governs connection establishment is the
configured per-REQUEST timeout (10) and the value that governs the wait for
the response is the configured per-CONNECTION timeout (30) — the roles are
swapped relative to the claim. The recovery part of the claim does hold:
a timeout raised under either bound is a caught `RequestException` recorded
as one failed-transport call. -/
theorem timeout_tuple_roles_swapped :
    connectTimeoutApplied 10 30 = 10 ∧ readTimeoutApplied 10 30 = 30 ∧
    ¬ (readTimeoutApplied 10 30 = 10 ∧ connectTimeoutApplied 10 30 = 30) ∧
    (∀ e : ℚ, callStep false (CallOutcome.transportError e) =
      some (CallRecord.failedTransport e)) := by
  exact ⟨rfl, rfl, by decide, fun e => rfl⟩
